import Mathlib

/-!
Verification of the lnbot Python SDK's marshalling and SSE streaming core.

The definitions below are a shallow embedding of `src/lnbot/types.py`,
`src/lnbot/errors.py` and `src/lnbot/client.py`.  Python dictionaries are
modelled as insertion-ordered association lists with unique keys
(`dictInsert` reproduces CPython's "update in place, append new keys last"
behaviour), JSON values as the inductive `Json`, and the exceptions the code
can raise or catch (`json.JSONDecodeError`, `TypeError`, `AttributeError`)
as the inductive `PyExn` threaded through `Except`.  The standard-library
JSON decoder (`json.loads`), an external collaborator, is a parameter
`decode : String → Option Json` of every function that calls it; `Option.none`
stands for a `json.JSONDecodeError`.  String primitives (`str.strip`,
`str.startswith`, slicing, `str.capitalize`, `str.lower`, and the
`[a-z0-9]`/`[A-Z]` regex character classes of `_to_snake`) are modelled over
ASCII, which is the alphabet all the specified identifiers live in.
-/

namespace LnBot

/-- Json models a decoded Python JSON value: `null` is Python `None`, `obj`
is a `dict` with string keys in insertion order. -/
inductive Json where
  | null : Json
  | bool (b : Bool) : Json
  | num (n : Int) : Json
  | str (s : String) : Json
  | arr (elems : List Json) : Json
  | obj (entries : List (String × Json)) : Json

/-- PyExn models the Python exceptions relevant to this code base:
`json.JSONDecodeError` (raised by `json.loads`), `TypeError` (raised by a
dataclass constructor when a required field is missing), and
`AttributeError` (raised by `.items()` / `.get` on a non-dict). -/
inductive PyExn where
  | jsonDecodeError : PyExn
  | typeError : PyExn
  | attributeError : PyExn
deriving DecidableEq

/-- dictInsert models CPython dict insertion: an existing key keeps its
position and takes the new value, a new key is appended at the end. -/
def dictInsert : List (String × Json) → String → Json → List (String × Json)
  | [], k, v => [(k, v)]
  | (k', v') :: rest, k, v =>
    if k' = k then (k', v) :: rest else (k', v') :: dictInsert rest k v

/-- dictLookup models Python `d.get(key)` on a dict with unique keys. -/
def dictLookup : List (String × Json) → String → Option Json
  | [], _ => Option.none
  | (k, v) :: rest, key => if k = key then some v else dictLookup rest key

/-- isUpperAZ is the regex class `[A-Z]` used by `_to_snake`. -/
def isUpperAZ (c : Char) : Bool := 65 ≤ c.toNat && c.toNat ≤ 90

/-- isLowerAZ is the regex class `[a-z]` part of the lookbehind in `_to_snake`. -/
def isLowerAZ (c : Char) : Bool := 97 ≤ c.toNat && c.toNat ≤ 122

/-- isDigit09 is the regex class `[0-9]` part of the lookbehind in `_to_snake`. -/
def isDigit09 (c : Char) : Bool := 48 ≤ c.toNat && c.toNat ≤ 57

/-- asciiLower models Python `str.lower` on one ASCII character. -/
def asciiLower (c : Char) : Char :=
  if isUpperAZ c then Char.ofNat (c.toNat + 32) else c

/-- asciiUpper models Python `str.upper` on one ASCII character. -/
def asciiUpper (c : Char) : Char :=
  if isLowerAZ c then Char.ofNat (c.toNat - 32) else c

/-- splitUnderscore models Python `name.split("_")`: `""` yields `[""]`,
and every separator starts a new (possibly empty) part. -/
def splitUnderscore : List Char → List (List Char)
  | [] => [[]]
  | c :: rest =>
    if c = '_' then [] :: splitUnderscore rest
    else
      match splitUnderscore rest with
      | [] => [[c]]
      | p :: ps => (c :: p) :: ps

/-- capitalizeChars models Python `str.capitalize`: first character
upper-cased, all remaining characters lower-cased. -/
def capitalizeChars : List Char → List Char
  | [] => []
  | c :: rest => asciiUpper c :: rest.map asciiLower

/-- toCamelChars embeds `types._to_camel`:
`parts = name.split("_"); parts[0] + "".join(p.capitalize() for p in parts[1:])`. -/
def toCamelChars (cs : List Char) : List Char :=
  match splitUnderscore cs with
  | [] => []
  | p :: ps => p ++ (ps.map capitalizeChars).flatten

/-- toSnakeGo processes the tail of `_to_snake`'s input; `prev` is the
preceding character of the original string, consulted by the regex
lookbehind `(?<=[a-z0-9])` before each `[A-Z]` match, and every character is
finally lower-cased by `.lower()`. -/
def toSnakeGo : Char → List Char → List Char
  | _, [] => []
  | prev, c :: rest =>
    if isUpperAZ c && (isLowerAZ prev || isDigit09 prev) then
      '_' :: asciiLower c :: toSnakeGo c rest
    else
      asciiLower c :: toSnakeGo c rest

/-- toSnakeChars embeds `types._to_snake`:
`re.sub(r"(?<=[a-z0-9])([A-Z])", r"_\1", name).lower()`.  The first
character has no preceding character, so it can never match the lookbehind. -/
def toSnakeChars : List Char → List Char
  | [] => []
  | c :: rest => asciiLower c :: toSnakeGo c rest

/-- toCamelKey is `types._to_camel` on a `String`. -/
def toCamelKey (s : String) : String := ⟨toCamelChars s.data⟩

/-- toSnakeKey is `types._to_snake` on a `String`. -/
def toSnakeKey (s : String) : String := ⟨toSnakeChars s.data⟩

/-- to_camel embeds `types.to_camel`:
`{_to_camel(k): v for k, v in data.items() if v is not None}`. -/
def to_camel (data : List (String × Json)) : List (String × Json) :=
  data.foldl
    (fun m kv =>
      match kv.2 with
      | Json.null => m
      | v => dictInsert m (toCamelKey kv.1) v)
    []

/-- from_camel embeds `types.from_camel`:
`{_to_snake(k): v for k, v in data.items()}`. -/
def from_camel (data : List (String × Json)) : List (String × Json) :=
  data.foldl (fun m kv => dictInsert m (toSnakeKey kv.1) kv.2) []

/-- FieldShape is the declared field table of one response dataclass:
field name paired with its declared default (`Option.none` = required).
This is the reflection data `cls.__dataclass_fields__` that `types.parse`
consults. -/
abbrev FieldShape := List (String × Option Json)

/-- parseFields embeds the dataclass construction
`cls(**{k: v for k, v in mapped.items() if k in fields})`: each declared
field takes the mapped value when present, its declared default otherwise,
and a `TypeError` is raised when a required field is absent. -/
def parseFields (mapped : List (String × Json)) : FieldShape → Except PyExn (List (String × Json))
  | [] => Except.ok []
  | (n, dflt) :: rest =>
    match dictLookup mapped n, dflt with
    | some v, _ => (parseFields mapped rest).map (fun r => (n, v) :: r)
    | Option.none, some d => (parseFields mapped rest).map (fun r => (n, d) :: r)
    | Option.none, Option.none => Except.error PyExn.typeError

/-- parse embeds `types.parse`: `mapped = from_camel(data)` followed by
filtered keyword construction.  When `data` is not a dict, `data.items()`
inside `from_camel` raises `AttributeError`. -/
def parse (shape : FieldShape) (data : Json) : Except PyExn (List (String × Json)) :=
  match data with
  | Json.obj entries => parseFields (from_camel entries) shape
  | _ => Except.error PyExn.attributeError

/-- invoiceResponseFields is the field table of `types.InvoiceResponse`. -/
def invoiceResponseFields : FieldShape :=
  [("number", Option.none), ("status", Option.none), ("amount", Option.none),
   ("bolt11", Option.none), ("reference", some Json.null), ("memo", some Json.null),
   ("preimage", some Json.null), ("tx_number", some Json.null),
   ("created_at", some Json.null), ("settled_at", some Json.null),
   ("expires_at", some Json.null)]

/-- paymentResponseFields is the field table of `types.PaymentResponse`. -/
def paymentResponseFields : FieldShape :=
  [("number", Option.none), ("status", Option.none), ("amount", Option.none),
   ("max_fee", Option.none), ("service_fee", Option.none), ("address", Option.none),
   ("actual_fee", some Json.null), ("reference", some Json.null),
   ("preimage", some Json.null), ("tx_number", some Json.null),
   ("failure_reason", some Json.null), ("created_at", some Json.null),
   ("settled_at", some Json.null)]

/-- walletResponseFields is the field table of `types.WalletResponse`. -/
def walletResponseFields : FieldShape :=
  [("wallet_id", Option.none), ("name", Option.none), ("balance", Option.none),
   ("on_hold", Option.none), ("available", Option.none)]

/-- truthy models Python truth-value testing on a decoded JSON value:
`None`, `False`, `0`, `""`, `[]` and `{}` are falsy, everything else truthy. -/
def truthy : Json → Bool
  | Json.null => false
  | Json.bool b => b
  | Json.num n => n != 0
  | Json.str s => s ≠ ""
  | Json.arr [] => false
  | Json.arr (_ :: _) => true
  | Json.obj [] => false
  | Json.obj (_ :: _) => true

/-- jsonLoads models a call to `json.loads`; the external decoder is the
parameter `decode`, and `Option.none` stands for a raised
`json.JSONDecodeError`. -/
def jsonLoads (decode : String → Option Json) (s : String) : Except PyExn Json :=
  match decode s with
  | some j => Except.ok j
  | Option.none => Except.error PyExn.jsonDecodeError

/-- pyGet models Python `data.get(key)`: on a dict it returns the value or
`None`; on any other value the attribute access raises `AttributeError`. -/
def pyGet (j : Json) (key : String) : Except PyExn Json :=
  match j with
  | Json.obj entries => Except.ok ((dictLookup entries key).getD Json.null)
  | _ => Except.error PyExn.attributeError

/-- extractMessageAttempt is the body of the `try` block of
`errors._extract_message`:
`data = json.loads(body); return data.get("message") or data.get("error") or fallback`.
Python `or` returns its first truthy operand, else the last operand. -/
def extractMessageAttempt (decode : String → Option Json) (body fallback : String) :
    Except PyExn Json := do
  let data ← jsonLoads decode body
  let m ← pyGet data "message"
  if truthy m then
    return m
  else
    let e ← pyGet data "error"
    if truthy e then return e else return (Json.str fallback)

/-- extractCaught is the exception filter of `errors._extract_message`'s
handler: `except (json.JSONDecodeError, TypeError, AttributeError)`. -/
def extractCaught : PyExn → Bool
  | PyExn.jsonDecodeError => true
  | PyExn.typeError => true
  | PyExn.attributeError => true

/-- pyTry models a `try`/`except` block: exceptions accepted by `caught`
are replaced by the handler's value, all others propagate. -/
def pyTry (caught : PyExn → Bool) (x : Except PyExn Json) (handler : Json) :
    Except PyExn Json :=
  match x with
  | Except.ok v => Except.ok v
  | Except.error e => if caught e then Except.ok handler else Except.error e

/-- _extract_message embeds `errors._extract_message`: the attempt wrapped
in its `except (json.JSONDecodeError, TypeError, AttributeError): return fallback`. -/
def _extract_message (decode : String → Option Json) (body fallback : String) :
    Except PyExn Json :=
  pyTry extractCaught (extractMessageAttempt decode body fallback) (Json.str fallback)

/-- extractMsg is the value `errors._extract_message` returns; the error
branch is provably unreachable (every `PyExn` is caught). -/
def extractMsg (decode : String → Option Json) (body fallback : String) : Json :=
  match _extract_message decode body fallback with
  | Except.ok v => v
  | Except.error _ => Json.str fallback

/-- ErrorKind is the typed error taxonomy of `errors.py`: the five named
subclasses plus the `LnBotError` base used for every other status. -/
inductive ErrorKind where
  | badRequest : ErrorKind
  | unauthorized : ErrorKind
  | forbidden : ErrorKind
  | notFound : ErrorKind
  | conflict : ErrorKind
  | generic : ErrorKind
deriving DecidableEq

/-- LnBotError carries what every exception of `errors.py` carries: its
class, the extracted message (`self.args[0]`, which may be a non-string
JSON value), `self.status` and `self.body`. -/
structure LnBotError where
  kind : ErrorKind
  message : Json
  status : Nat
  body : String

/-- HttpResponse models the slice of an `httpx.Response` the client reads:
status code, `content-type` header (empty when absent), reason phrase and
decoded text body. -/
structure HttpResponse where
  status : Nat
  contentType : String
  reasonPhrase : String
  body : String

/-- isSuccess models `httpx.Response.is_success`: `200 <= status < 300`. -/
def isSuccess (status : Nat) : Bool := 200 ≤ status && status < 300

/-- _raise_for_status embeds `client._raise_for_status` together with the
constructors of `errors.py`: success returns normally, each of the five
named statuses raises its subclass (whose constructor extracts the message
with the per-kind fallback), and every other status raises the base
`LnBotError` with the reason phrase (or `"Error"` when falsy) as fallback. -/
def _raise_for_status (decode : String → Option Json) (resp : HttpResponse) :
    Option LnBotError :=
  if isSuccess resp.status then Option.none
  else
    match resp.status with
    | 400 => some ⟨ErrorKind.badRequest, extractMsg decode resp.body "Bad Request", 400, resp.body⟩
    | 401 => some ⟨ErrorKind.unauthorized, extractMsg decode resp.body "Unauthorized", 401, resp.body⟩
    | 403 => some ⟨ErrorKind.forbidden, extractMsg decode resp.body "Forbidden", 403, resp.body⟩
    | 404 => some ⟨ErrorKind.notFound, extractMsg decode resp.body "Not Found", 404, resp.body⟩
    | 409 => some ⟨ErrorKind.conflict, extractMsg decode resp.body "Conflict", 409, resp.body⟩
    | s =>
      some ⟨ErrorKind.generic,
        extractMsg decode resp.body (if resp.reasonPhrase = "" then "Error" else resp.reasonPhrase),
        s, resp.body⟩

/-- substrAt reports whether `needle` occurs at the head of `hay`. -/
def substrAt : List Char → List Char → Bool
  | [], _ => true
  | _ :: _, [] => false
  | n :: ns, h :: hs => n == h && substrAt ns hs

/-- hasSubstrChars models Python `needle in hay` on strings. -/
def hasSubstrChars : List Char → List Char → Bool
  | needle, [] => substrAt needle []
  | needle, h :: hs => substrAt needle (h :: hs) || hasSubstrChars needle hs

/-- hasSubstr is `needle in hay` on `String`s, as in
`"application/json" in ct`. -/
def hasSubstr (needle hay : String) : Bool := hasSubstrChars needle.data hay.data

/-- RespValue is what a dispatcher entry point returns on success:
`None` (204 path), a decoded JSON value, or the raw text. -/
inductive RespValue where
  | noContent : RespValue
  | json (j : Json) : RespValue
  | text (s : String) : RespValue

/-- DispatchResult is the outcome of one dispatcher entry point: a raised
typed API error, an uncaught Python exception, or a returned value. -/
inductive DispatchResult where
  | apiError (e : LnBotError) : DispatchResult
  | exn (e : PyExn) : DispatchResult
  | value (v : RespValue) : DispatchResult

/-- _get_handle embeds the response handling of `LnBot._get`:
`_raise_for_status(resp); return resp.json()`. -/
def _get_handle (decode : String → Option Json) (resp : HttpResponse) : DispatchResult :=
  match _raise_for_status decode resp with
  | some e => DispatchResult.apiError e
  | Option.none =>
    match jsonLoads decode resp.body with
    | Except.ok j => DispatchResult.value (RespValue.json j)
    | Except.error e => DispatchResult.exn e

/-- _post_handle embeds the response handling of `LnBot._post`:
`_raise_for_status(resp); if resp.status_code == 204: return None;`
`ct = resp.headers.get("content-type", "");`
`return resp.json() if "application/json" in ct else resp.text`. -/
def _post_handle (decode : String → Option Json) (resp : HttpResponse) : DispatchResult :=
  match _raise_for_status decode resp with
  | some e => DispatchResult.apiError e
  | Option.none =>
    if resp.status = 204 then DispatchResult.value RespValue.noContent
    else if hasSubstr "application/json" resp.contentType then
      match jsonLoads decode resp.body with
      | Except.ok j => DispatchResult.value (RespValue.json j)
      | Except.error e => DispatchResult.exn e
    else DispatchResult.value (RespValue.text resp.body)

/-- _patch_handle embeds the response handling of `LnBot._patch`, which has
no 204 branch:
`_raise_for_status(resp); ct = resp.headers.get("content-type", "");`
`return resp.json() if "application/json" in ct else resp.text`. -/
def _patch_handle (decode : String → Option Json) (resp : HttpResponse) : DispatchResult :=
  match _raise_for_status decode resp with
  | some e => DispatchResult.apiError e
  | Option.none =>
    if hasSubstr "application/json" resp.contentType then
      match jsonLoads decode resp.body with
      | Except.ok j => DispatchResult.value (RespValue.json j)
      | Except.error e => DispatchResult.exn e
    else DispatchResult.value (RespValue.text resp.body)

/-- _delete_handle embeds the response handling of `LnBot._delete`:
`_raise_for_status(resp)` and an implicit `return None`. -/
def _delete_handle (decode : String → Option Json) (resp : HttpResponse) : DispatchResult :=
  match _raise_for_status decode resp with
  | some e => DispatchResult.apiError e
  | Option.none => DispatchResult.value RespValue.noContent

/-- isPySpace models the characters Python's default `str.strip` removes
(over the ASCII range): space, tab, newline, carriage return, vertical tab
and form feed. -/
def isPySpace (c : Char) : Bool :=
  c == ' ' || c == '\t' || c == '\n' || c == '\r' || c == '\x0b' || c == '\x0c'

/-- pyStrip models Python `s.strip()` on ASCII text. -/
def pyStrip (s : String) : String :=
  ⟨((s.data.dropWhile isPySpace).reverse.dropWhile isPySpace).reverse⟩

/-- startsWithChars reports whether the second list begins with the first. -/
def startsWithChars : List Char → List Char → Bool
  | [], _ => true
  | _ :: _, [] => false
  | p :: ps, c :: cs => p == c && startsWithChars ps cs

/-- pyStartsWith models Python `line.startswith(pre)`. -/
def pyStartsWith (line pre : String) : Bool := startsWithChars pre.data line.data

/-- pyDrop models Python slicing `s[n:]`. -/
def pyDrop (s : String) (n : Nat) : String := ⟨s.data.drop n⟩

/-- StreamEvent models `types.InvoiceEvent` / `types.PaymentEvent`: the
pending `event:` discriminator paired with the parsed payload record. -/
structure StreamEvent where
  event : String
  data : List (String × Json)

/-- watchStep embeds one loop iteration of `InvoicesResource.watch` /
`PaymentsResource.watch` (the payload dataclass is the `shape` parameter).
It returns the new pending event name, the events yielded by this line, and
whether an uncaught exception escaped: the `try` block catches only
`json.JSONDecodeError` and `TypeError`, so the `AttributeError` that
`parse` raises on a non-dict payload propagates and kills the generator. -/
def watchStep (decode : String → Option Json) (shape : FieldShape)
    (pending : String) (line : String) : String × List StreamEvent × Bool :=
  if pyStartsWith line "event:" then
    (pyStrip (pyDrop line 6), [], false)
  else if pyStartsWith line "data:" then
    let raw := pyStrip (pyDrop line 5)
    if raw ≠ "" ∧ pending ≠ "" then
      match (jsonLoads decode raw).bind (parse shape) with
      | Except.ok payload => ("", [⟨pending, payload⟩], false)
      | Except.error PyExn.jsonDecodeError => ("", [], false)
      | Except.error PyExn.typeError => ("", [], false)
      | Except.error PyExn.attributeError => (pending, [], true)
    else (pending, [], false)
  else (pending, [], false)

/-- watchRun embeds the whole `watch` loop over a finite line sequence,
starting from `event_type = ""`: it returns the events in emission order
and whether the loop aborted with an uncaught exception. -/
def watchRun (decode : String → Option Json) (shape : FieldShape) :
    String → List String → List StreamEvent × Bool
  | _, [] => ([], false)
  | pending, line :: rest =>
    let s := watchStep decode shape pending line
    if s.2.2 then (s.2.1, true)
    else
      let t := watchRun decode shape s.1 rest
      (s.2.1 ++ t.1, t.2)

/-- WalletEvent models `types.WalletEvent` as constructed by
`EventsResource.stream`; each field holds whatever JSON value
`data.get(...)` produced (the dataclass performs no validation). -/
structure WalletEvent where
  event : Json
  created_at : Json
  data : Json

/-- walletEventStep embeds one loop iteration of `EventsResource.stream`:
only `data:` lines matter, the decoded dict's `event` / `createdAt` / `data`
keys are read with defaults `""`, `""`, `{}`, a `json.JSONDecodeError` is
caught and dropped, and a non-dict payload raises an uncaught
`AttributeError` at `data.get("event", "")`. -/
def walletEventStep (decode : String → Option Json) (line : String) :
    List WalletEvent × Bool :=
  if pyStartsWith line "data:" then
    let raw := pyStrip (pyDrop line 5)
    if raw ≠ "" then
      match decode raw with
      | Option.none => ([], false)
      | some (Json.obj entries) =>
        ([⟨(dictLookup entries "event").getD (Json.str ""),
           (dictLookup entries "createdAt").getD (Json.str ""),
           (dictLookup entries "data").getD (Json.obj [])⟩], false)
      | some _ => ([], true)
    else ([], false)
  else ([], false)

/-- walletEventsRun embeds the whole `EventsResource.stream` loop over a
finite line sequence. -/
def walletEventsRun (decode : String → Option Json) : List String → List WalletEvent × Bool
  | [] => ([], false)
  | line :: rest =>
    let s := walletEventStep decode line
    if s.2 then (s.1, true)
    else
      let t := walletEventsRun decode rest
      (s.1 ++ t.1, t.2)

/-!
Async mirror.  `AsyncLnBot` and the async resource classes repeat the sync
bodies verbatim, replacing blocking calls with `await` / `async for`; the
awaiting itself is invisible to a functional model of
response-to-result behaviour, so the following definitions are independent
translations of the async class bodies.
-/

/-- async_get_handle embeds the response handling of `AsyncLnBot._get`. -/
def async_get_handle (decode : String → Option Json) (resp : HttpResponse) : DispatchResult :=
  match _raise_for_status decode resp with
  | some e => DispatchResult.apiError e
  | Option.none =>
    match jsonLoads decode resp.body with
    | Except.ok j => DispatchResult.value (RespValue.json j)
    | Except.error e => DispatchResult.exn e

/-- async_post_handle embeds the response handling of `AsyncLnBot._post`. -/
def async_post_handle (decode : String → Option Json) (resp : HttpResponse) : DispatchResult :=
  match _raise_for_status decode resp with
  | some e => DispatchResult.apiError e
  | Option.none =>
    if resp.status = 204 then DispatchResult.value RespValue.noContent
    else if hasSubstr "application/json" resp.contentType then
      match jsonLoads decode resp.body with
      | Except.ok j => DispatchResult.value (RespValue.json j)
      | Except.error e => DispatchResult.exn e
    else DispatchResult.value (RespValue.text resp.body)

/-- async_patch_handle embeds the response handling of `AsyncLnBot._patch`
(again with no 204 branch). -/
def async_patch_handle (decode : String → Option Json) (resp : HttpResponse) : DispatchResult :=
  match _raise_for_status decode resp with
  | some e => DispatchResult.apiError e
  | Option.none =>
    if hasSubstr "application/json" resp.contentType then
      match jsonLoads decode resp.body with
      | Except.ok j => DispatchResult.value (RespValue.json j)
      | Except.error e => DispatchResult.exn e
    else DispatchResult.value (RespValue.text resp.body)

/-- async_delete_handle embeds the response handling of `AsyncLnBot._delete`. -/
def async_delete_handle (decode : String → Option Json) (resp : HttpResponse) : DispatchResult :=
  match _raise_for_status decode resp with
  | some e => DispatchResult.apiError e
  | Option.none => DispatchResult.value RespValue.noContent

/-- asyncWatchStep embeds one `async for` iteration of
`AsyncInvoicesResource.watch` / `AsyncPaymentsResource.watch`. -/
def asyncWatchStep (decode : String → Option Json) (shape : FieldShape)
    (pending : String) (line : String) : String × List StreamEvent × Bool :=
  if pyStartsWith line "event:" then
    (pyStrip (pyDrop line 6), [], false)
  else if pyStartsWith line "data:" then
    let raw := pyStrip (pyDrop line 5)
    if raw ≠ "" ∧ pending ≠ "" then
      match (jsonLoads decode raw).bind (parse shape) with
      | Except.ok payload => ("", [⟨pending, payload⟩], false)
      | Except.error PyExn.jsonDecodeError => ("", [], false)
      | Except.error PyExn.typeError => ("", [], false)
      | Except.error PyExn.attributeError => (pending, [], true)
    else (pending, [], false)
  else (pending, [], false)

/-- asyncWatchRun embeds the whole async `watch` loop. -/
def asyncWatchRun (decode : String → Option Json) (shape : FieldShape) :
    String → List String → List StreamEvent × Bool
  | _, [] => ([], false)
  | pending, line :: rest =>
    let s := asyncWatchStep decode shape pending line
    if s.2.2 then (s.2.1, true)
    else
      let t := asyncWatchRun decode shape s.1 rest
      (s.2.1 ++ t.1, t.2)

/-- asyncWalletEventStep embeds one `async for` iteration of
`AsyncEventsResource.stream`. -/
def asyncWalletEventStep (decode : String → Option Json) (line : String) :
    List WalletEvent × Bool :=
  if pyStartsWith line "data:" then
    let raw := pyStrip (pyDrop line 5)
    if raw ≠ "" then
      match decode raw with
      | Option.none => ([], false)
      | some (Json.obj entries) =>
        ([⟨(dictLookup entries "event").getD (Json.str ""),
           (dictLookup entries "createdAt").getD (Json.str ""),
           (dictLookup entries "data").getD (Json.obj [])⟩], false)
      | some _ => ([], true)
    else ([], false)
  else ([], false)

/-- asyncWalletEventsRun embeds the whole `AsyncEventsResource.stream` loop. -/
def asyncWalletEventsRun (decode : String → Option Json) : List String → List WalletEvent × Bool
  | [] => ([], false)
  | line :: rest =>
    let s := asyncWalletEventStep decode line
    if s.2 then (s.1, true)
    else
      let t := asyncWalletEventsRun decode rest
      (s.1 ++ t.1, t.2)

/-!
Lemma layer: ASCII characters, the naming codec, dictionaries, and the
parsing and streaming functions.
-/

/-- joinUnderscore builds the identifier `w₁_w₂_..._wₖ` from its words;
it encodes the claims' phrase "composed of words joined by underscores". -/
def joinUnderscore : List (List Char) → List Char
  | [] => []
  | w :: ws => w ++ (ws.map (fun u => '_' :: u)).flatten

/-- LowerWord says a word is nonempty and all lowercase ASCII letters. -/
def LowerWord (w : List Char) : Prop := w ≠ [] ∧ ∀ c ∈ w, isLowerAZ c = true

instance : DecidablePred LowerWord := fun w => by
  unfold LowerWord
  infer_instance

/-- MidLong says every word of the list except the last has length ≥ 2. -/
def MidLong : List (List Char) → Prop
  | [] => True
  | w :: rest => (rest = [] ∨ 2 ≤ w.length) ∧ MidLong rest

instance : DecidablePred MidLong := fun ws => by
  induction ws with
  | nil => exact .isTrue trivial
  | cons w rest ih => unfold MidLong; exact @instDecidableAnd _ _ _ ih

theorem charToNat_ofNat (n : Nat) (h : n < 55296) : (Char.ofNat n).toNat = n := by
  have hv : n.isValidChar := Or.inl h
  simp [Char.ofNat, hv, Char.toNat, Char.ofNatAux, UInt32.toNat, UInt32.ofNatCore]

theorem char_eq_of_toNat_eq {c d : Char} (h : c.toNat = d.toNat) : c = d :=
  Char.ext (UInt32.ext h)

theorem isLowerAZ_iff {c : Char} : isLowerAZ c = true ↔ 97 ≤ c.toNat ∧ c.toNat ≤ 122 := by
  simp [isLowerAZ]

theorem isUpperAZ_of_lower {c : Char} (hc : isLowerAZ c = true) : isUpperAZ c = false := by
  rcases isLowerAZ_iff.mp hc with ⟨h1, h2⟩
  simp [isUpperAZ]
  omega

theorem asciiLower_of_lower {c : Char} (hc : isLowerAZ c = true) : asciiLower c = c := by
  unfold asciiLower
  rw [isUpperAZ_of_lower hc]
  rfl

theorem asciiUpper_toNat {c : Char} (hc : isLowerAZ c = true) :
    (asciiUpper c).toNat = c.toNat - 32 := by
  rcases isLowerAZ_iff.mp hc with ⟨h1, h2⟩
  unfold asciiUpper
  rw [hc]
  simp only [if_true]
  exact charToNat_ofNat _ (by omega)

theorem isUpperAZ_asciiUpper {c : Char} (hc : isLowerAZ c = true) :
    isUpperAZ (asciiUpper c) = true := by
  rcases isLowerAZ_iff.mp hc with ⟨h1, h2⟩
  simp [isUpperAZ, asciiUpper_toNat hc]
  omega

theorem isLowerAZ_asciiUpper {c : Char} (hc : isLowerAZ c = true) :
    isLowerAZ (asciiUpper c) = false := by
  rcases isLowerAZ_iff.mp hc with ⟨h1, h2⟩
  simp [isLowerAZ, asciiUpper_toNat hc]
  omega

theorem asciiLower_asciiUpper {c : Char} (hc : isLowerAZ c = true) :
    asciiLower (asciiUpper c) = c := by
  rcases isLowerAZ_iff.mp hc with ⟨h1, h2⟩
  unfold asciiLower
  rw [isUpperAZ_asciiUpper hc]
  simp only [if_true]
  apply char_eq_of_toNat_eq
  rw [charToNat_ofNat _ (by rw [asciiUpper_toNat hc]; omega), asciiUpper_toNat hc]
  omega

theorem lower_ne_underscore {c : Char} (hc : isLowerAZ c = true) : c ≠ '_' := by
  intro h
  subst h
  exact absurd hc (by decide)

theorem map_asciiLower_of_lower (w : List Char) (hw : ∀ c ∈ w, isLowerAZ c = true) :
    w.map asciiLower = w := by
  induction w with
  | nil => rfl
  | cons c rest ih =>
    simp only [List.map_cons, asciiLower_of_lower (hw c (by simp))]
    rw [ih (fun x hx => hw x (by simp [hx]))]

theorem splitUnderscore_no_sep (w : List Char) (h : '_' ∉ w) :
    splitUnderscore w = [w] := by
  induction w with
  | nil => rfl
  | cons c rest ih =>
    have hc : ¬ c = '_' := fun hh => h (by simp [hh])
    simp only [splitUnderscore, if_neg hc, ih (fun hh => h (by simp [hh]))]

theorem splitUnderscore_sep (w cs : List Char) (h : '_' ∉ w) :
    splitUnderscore (w ++ '_' :: cs) = w :: splitUnderscore cs := by
  induction w with
  | nil => simp [splitUnderscore]
  | cons c rest ih =>
    have hc : ¬ c = '_' := fun hh => h (by simp [hh])
    simp only [List.cons_append, splitUnderscore, if_neg hc, List.append_eq,
      ih (fun hh => h (by simp [hh]))]

theorem splitUnderscore_join (w : List Char) (ws : List (List Char))
    (hw : '_' ∉ w) (hws : ∀ u ∈ ws, '_' ∉ u) :
    splitUnderscore (joinUnderscore (w :: ws)) = w :: ws := by
  induction ws generalizing w with
  | nil => simpa [joinUnderscore] using splitUnderscore_no_sep w hw
  | cons u ws' ih =>
    have : joinUnderscore (w :: u :: ws') = w ++ '_' :: joinUnderscore (u :: ws') := by
      simp [joinUnderscore]
    rw [this, splitUnderscore_sep w _ hw, ih u (hws u (by simp)) (fun x hx => hws x (by simp [hx]))]

theorem toCamelChars_join (w : List Char) (ws : List (List Char))
    (hw : '_' ∉ w) (hws : ∀ u ∈ ws, '_' ∉ u) :
    toCamelChars (joinUnderscore (w :: ws)) = w ++ (ws.map capitalizeChars).flatten := by
  unfold toCamelChars
  rw [splitUnderscore_join w ws hw hws]

theorem lowerWord_no_underscore {w : List Char} (hw : ∀ c ∈ w, isLowerAZ c = true) :
    '_' ∉ w := fun h => lower_ne_underscore (hw '_' h) rfl

theorem capitalizeChars_lower (c : Char) (rest : List Char)
    (hrest : ∀ x ∈ rest, isLowerAZ x = true) :
    capitalizeChars (c :: rest) = asciiUpper c :: rest := by
  simp [capitalizeChars, map_asciiLower_of_lower rest hrest]

theorem getLastD_mem_of_ne_nil (w : List Char) (hne : w ≠ []) (d : Char) :
    w.getLastD d ∈ w := by
  induction w generalizing d with
  | nil => exact absurd rfl hne
  | cons c w' ih =>
    rw [List.getLastD_cons]
    cases w' with
    | nil => simp [List.getLastD]
    | cons x xs => exact List.mem_cons_of_mem _ (ih (by simp) c)

theorem lower_getLastD (w : List Char) (hw : ∀ c ∈ w, isLowerAZ c = true)
    (d : Char) (hd : isLowerAZ d = true) : isLowerAZ (w.getLastD d) = true := by
  cases w with
  | nil => exact hd
  | cons c w' =>
    exact hw _ (getLastD_mem_of_ne_nil (c :: w') (by simp) d)

theorem toSnakeGo_lower_run (w : List Char) (hw : ∀ c ∈ w, isLowerAZ c = true)
    (prev : Char) (cs : List Char) :
    toSnakeGo prev (w ++ cs) = w ++ toSnakeGo (w.getLastD prev) cs := by
  induction w generalizing prev with
  | nil => rfl
  | cons c w' ih =>
    have hc : isLowerAZ c = true := hw c (by simp)
    simp only [List.cons_append, toSnakeGo, isUpperAZ_of_lower hc, Bool.false_and,
      Bool.false_eq_true, if_false, if_neg, asciiLower_of_lower hc, List.getLastD_cons,
      List.append_eq]
    rw [ih (fun x hx => hw x (by simp [hx])) c]

theorem toSnakeGo_capWord (c : Char) (w' : List Char) (prev : Char)
    (hc : isLowerAZ c = true) (hw' : ∀ x ∈ w', isLowerAZ x = true)
    (hprev : isLowerAZ prev = true) (cs : List Char) :
    toSnakeGo prev ((asciiUpper c :: w') ++ cs) =
      '_' :: c :: (w' ++ toSnakeGo (w'.getLastD (asciiUpper c)) cs) := by
  simp only [List.cons_append, toSnakeGo, isUpperAZ_asciiUpper hc, hprev, Bool.true_or,
    Bool.and_self, if_true, asciiLower_asciiUpper hc, List.append_eq]
  rw [toSnakeGo_lower_run w' hw' (asciiUpper c) cs]

theorem toSnakeGo_camelTail (ws : List (List Char)) (prev : Char)
    (hprev : isLowerAZ prev = true)
    (hws : ∀ w ∈ ws, LowerWord w) (hmid : MidLong ws) :
    toSnakeGo prev ((ws.map capitalizeChars).flatten) =
      (ws.map (fun u => '_' :: u)).flatten := by
  induction ws generalizing prev with
  | nil => rfl
  | cons w ws' ih =>
    obtain ⟨hne, hlow⟩ := hws w (by simp)
    obtain ⟨c, w'', rfl⟩ : ∃ c w'', w = c :: w'' := by
      cases w with
      | nil => exact absurd rfl hne
      | cons c w'' => exact ⟨c, w'', rfl⟩
    have hc : isLowerAZ c = true := hlow c (by simp)
    have hw'' : ∀ x ∈ w'', isLowerAZ x = true := fun x hx => hlow x (by simp [hx])
    rw [List.map_cons, List.flatten_cons, capitalizeChars_lower c w'' hw'']
    show toSnakeGo prev ((asciiUpper c :: w'') ++ (ws'.map capitalizeChars).flatten) = _
    rw [toSnakeGo_capWord c w'' prev hc hw'' hprev]
    cases ws' with
    | nil => simp [toSnakeGo]
    | cons u us =>
      have hlen : 2 ≤ (c :: w'').length := by
        rcases hmid.1 with h | h
        · exact absurd h (by simp)
        · exact h
      have hne'' : w'' ≠ [] := by
        cases w'' with
        | nil => simp at hlen
        | cons _ _ => simp
      have hlast : isLowerAZ (w''.getLastD (asciiUpper c)) = true :=
        hw'' _ (getLastD_mem_of_ne_nil w'' hne'' (asciiUpper c))
      rw [ih (w''.getLastD (asciiUpper c)) hlast
        (fun x hx => hws x (by simp [hx])) hmid.2]
      simp

theorem toSnake_toCamel_chars (w : List Char) (ws : List (List Char))
    (hw : LowerWord w) (hws : ∀ u ∈ ws, LowerWord u) (hmid : MidLong ws) :
    toSnakeChars (toCamelChars (joinUnderscore (w :: ws))) = joinUnderscore (w :: ws) := by
  obtain ⟨hwne, hwlow⟩ := hw
  rw [toCamelChars_join w ws (lowerWord_no_underscore hwlow)
    (fun u hu => lowerWord_no_underscore (hws u hu).2)]
  obtain ⟨c, w'', rfl⟩ : ∃ c w'', w = c :: w'' := by
    cases w with
    | nil => exact absurd rfl hwne
    | cons c w'' => exact ⟨c, w'', rfl⟩
  have hc : isLowerAZ c = true := hwlow c (by simp)
  have hw'' : ∀ x ∈ w'', isLowerAZ x = true := fun x hx => hwlow x (by simp [hx])
  show toSnakeChars (c :: (w'' ++ (ws.map capitalizeChars).flatten)) = _
  simp only [toSnakeChars, asciiLower_of_lower hc]
  rw [toSnakeGo_lower_run w'' hw'' c _,
    toSnakeGo_camelTail ws _ (lower_getLastD w'' hw'' c hc) hws hmid]
  simp [joinUnderscore]

theorem toSnakeKey_toCamelKey (w : List Char) (ws : List (List Char))
    (hw : LowerWord w) (hws : ∀ u ∈ ws, LowerWord u) (hmid : MidLong ws) :
    toSnakeKey (toCamelKey ⟨joinUnderscore (w :: ws)⟩) = ⟨joinUnderscore (w :: ws)⟩ := by
  show (⟨toSnakeChars (toCamelChars (joinUnderscore (w :: ws)))⟩ : String) = _
  rw [toSnake_toCamel_chars w ws hw hws hmid]

theorem to_camel_single {k : String} {v : Json} (hv : v ≠ Json.null) :
    to_camel [(k, v)] = [(toCamelKey k, v)] := by
  cases v with
  | null => exact absurd rfl hv
  | bool b => rfl
  | num n => rfl
  | str s => rfl
  | arr elems => rfl
  | obj entries => rfl

/-- C3 counterexample: the name `a_b_c` is composed of lowercase ASCII
words joined by underscores, yet the round-trip returns `a_bc`: `_to_camel`
gives `aBC`, and in `_to_snake` the `C` is preceded by the uppercase `B`,
which the lookbehind `(?<=[a-z0-9])` rejects, so no underscore is restored
before it.  This falsifies `fromWire(toWire({name: v})) == {name: v}` as
universally stated. -/
theorem c3_counterexample :
    from_camel (to_camel [("a_b_c", Json.num 1)]) = [("a_bc", Json.num 1)] ∧
    ("a_bc" : String) ≠ "a_b_c" := ⟨rfl, by decide⟩

/-- C3 (amended): for every field name composed of nonempty lowercase
ASCII words joined by underscores in which every word other than the first
and the last has at least two letters, and every non-null value `v`,
`fromWire(toWire({name: v})) == {name: v}`.  (Single-letter middle words
break the round-trip, as the counterexample `a_b_c` shows.) -/
theorem c3_roundtrip (w : List Char) (ws : List (List Char)) (v : Json)
    (hw : LowerWord w) (hws : ∀ u ∈ ws, LowerWord u) (hmid : MidLong ws)
    (hv : v ≠ Json.null) :
    from_camel (to_camel [(⟨joinUnderscore (w :: ws)⟩, v)]) =
      [(⟨joinUnderscore (w :: ws)⟩, v)] := by
  rw [to_camel_single hv]
  show [(toSnakeKey (toCamelKey _), v)] = _
  rw [toSnakeKey_toCamelKey w ws hw hws hmid]

/-- Witness for C3: the round-trip theorem applied to the concrete name
`on_hold` with value 50. -/
theorem c3_roundtrip_witness :
    from_camel (to_camel [("on_hold", Json.num 50)]) = [("on_hold", Json.num 50)] :=
  c3_roundtrip ['o', 'n'] [['h', 'o', 'l', 'd']] (Json.num 50)
    (by decide) (by decide) (by decide) (fun h => Json.noConfusion h)

/-- extractSpec is the exception-free description of the message
extraction: decode the body; on a JSON object take the `message` value if
truthy, else the `error` value if truthy, else the fallback; on a decode
failure or a non-object result, the fallback. -/
def extractSpec (decode : String → Option Json) (body fallback : String) : Json :=
  match decode body with
  | Option.none => Json.str fallback
  | some (Json.obj entries) =>
    let m := (dictLookup entries "message").getD Json.null
    if truthy m then m
    else
      let e := (dictLookup entries "error").getD Json.null
      if truthy e then e else Json.str fallback
  | some _ => Json.str fallback

/-- kindFor is the status-to-error-class table of `_raise_for_status`. -/
def kindFor (status : Nat) : ErrorKind :=
  if status = 400 then ErrorKind.badRequest
  else if status = 401 then ErrorKind.unauthorized
  else if status = 403 then ErrorKind.forbidden
  else if status = 404 then ErrorKind.notFound
  else if status = 409 then ErrorKind.conflict
  else ErrorKind.generic

/-- fallbackFor is the per-kind fallback message table: the named classes
carry their fixed phrase, the generic class the reason phrase (or
`"Error"` when it is empty). -/
def fallbackFor (resp : HttpResponse) : String :=
  if resp.status = 400 then "Bad Request"
  else if resp.status = 401 then "Unauthorized"
  else if resp.status = 403 then "Forbidden"
  else if resp.status = 404 then "Not Found"
  else if resp.status = 409 then "Conflict"
  else if resp.reasonPhrase = "" then "Error" else resp.reasonPhrase

/-- C5 (amended): extraction never raises (every exception its body can
produce is caught) and returns exactly `extractSpec`: the `message` value
when truthy, else the `error` value when truthy, else the fallback — the
returned value is whatever the chosen field held, string or not. -/
theorem c5_extract_message (decode : String → Option Json) (body fallback : String) :
    _extract_message decode body fallback = Except.ok (extractSpec decode body fallback) := by
  unfold _extract_message extractMessageAttempt extractSpec jsonLoads
  cases hd : decode body with
  | none => rfl
  | some j =>
    cases j with
    | null => rfl
    | bool b => rfl
    | num n => rfl
    | str s => rfl
    | arr elems => rfl
    | obj entries =>
      simp only [Except.bind, bind, pyGet, pure, Except.pure]
      cases htm : truthy ((dictLookup entries "message").getD Json.null) with
      | true => simp [pyTry, htm]
      | false =>
        cases hte : truthy ((dictLookup entries "error").getD Json.null) with
        | true => simp [pyTry, htm, hte]
        | false => simp [pyTry, htm, hte]

/-- decodeMsgNum models `json.loads` on the body `{"message":5}`. -/
def decodeMsgNum : String → Option Json :=
  fun s => if s = "\x7b\"message\":5\x7d" then some (Json.obj [("message", Json.num 5)])
    else Option.none

/-- decodeMsgEmpty models `json.loads` on the body `{"message":"","error":"b"}`. -/
def decodeMsgEmpty : String → Option Json :=
  fun s =>
    if s = "\x7b\"message\":\"\",\"error\":\"b\"\x7d" then
      some (Json.obj [("message", Json.str ""), ("error", Json.str "b")])
    else Option.none

/-- isStrJson discriminates the string values among JSON values. -/
def isStrJson : Json → Bool
  | Json.str _ => true
  | _ => false

/-- C5 counterexample: on the body `{"message":5}` the extraction returns
the number 5, not a string, contradicting "the extraction returns a
string"; and on `{"message":"","error":"b"}` the object has a `message`
field yet the extraction returns the `error` value "b" (Python `or`
discards the falsy empty string), contradicting "if the resulting object
has a message field, uses it". -/
theorem c5_counterexample :
    _extract_message decodeMsgNum "\x7b\"message\":5\x7d" "Bad Request"
        = Except.ok (Json.num 5) ∧
    isStrJson (Json.num 5) = false ∧
    _extract_message decodeMsgEmpty "\x7b\"message\":\"\",\"error\":\"b\"\x7d" "Bad Request"
        = Except.ok (Json.str "b") :=
  ⟨rfl, rfl, rfl⟩

/-- C2: classification returns no error exactly on success statuses
`200 ≤ s < 300`; each of 400/401/403/404/409 yields its named error kind,
every other non-success status yields the generic kind; and the raised
error always carries the response's status, its raw body unchanged, and
the message extracted from the body with the per-kind fallback. -/
theorem c2_raise_for_status (decode : String → Option Json) (resp : HttpResponse) :
    (isSuccess resp.status = true → _raise_for_status decode resp = Option.none) ∧
    (isSuccess resp.status = false →
      _raise_for_status decode resp =
        some ⟨kindFor resp.status, extractMsg decode resp.body (fallbackFor resp),
          resp.status, resp.body⟩) := by
  constructor
  · intro h
    simp [_raise_for_status, h]
  · intro h
    by_cases h400 : resp.status = 400
    · simp [_raise_for_status, h400, kindFor, fallbackFor, isSuccess]
    · by_cases h401 : resp.status = 401
      · simp [_raise_for_status, h401, kindFor, fallbackFor, isSuccess]
      · by_cases h403 : resp.status = 403
        · simp [_raise_for_status, h403, kindFor, fallbackFor, isSuccess]
        · by_cases h404 : resp.status = 404
          · simp [_raise_for_status, h404, kindFor, fallbackFor, isSuccess]
          · by_cases h409 : resp.status = 409
            · simp [_raise_for_status, h409, kindFor, fallbackFor, isSuccess]
            · simp [_raise_for_status, h, h400, h401, h403, h404, h409, kindFor, fallbackFor]

/-- Witness for C2: a 404 response with body `nope` raises the NotFound
kind carrying status 404, the untouched body, and the fallback message
`Not Found` (the body is not valid JSON). -/
theorem c2_raise_for_status_witness :
    _raise_for_status (fun _ => Option.none) ⟨404, "", "Not Found", "nope"⟩ =
      some ⟨ErrorKind.notFound, Json.str "Not Found", 404, "nope"⟩ := by
  have h := (c2_raise_for_status (fun _ => Option.none) ⟨404, "", "Not Found", "nope"⟩).2 rfl
  simpa [kindFor, fallbackFor, extractMsg, _extract_message, extractMessageAttempt,
    jsonLoads, pyTry, extractCaught] using h

theorem parseFields_error_eq (m : List (String × Json)) (shape : FieldShape)
    (e : PyExn) (h : parseFields m shape = Except.error e) : e = PyExn.typeError := by
  induction shape generalizing e with
  | nil => simp [parseFields] at h
  | cons f rest ih =>
    obtain ⟨n, dflt⟩ := f
    unfold parseFields at h
    cases hl : dictLookup m n with
    | some v =>
      rw [hl] at h
      cases hr : parseFields m rest with
      | ok r => rw [hr] at h; simp [Except.map] at h
      | error e' =>
        rw [hr] at h
        simp only [Except.map] at h
        cases h
        exact ih _ hr
    | none =>
      rw [hl] at h
      cases dflt with
      | some d =>
        cases hr : parseFields m rest with
        | ok r => rw [hr] at h; simp [Except.map] at h
        | error e' =>
          rw [hr] at h
          simp only [Except.map] at h
          cases h
          exact ih _ hr
      | none =>
        cases h
        rfl

theorem parseFields_spec (m : List (String × Json)) (shape : FieldShape) :
    ((∃ e, parseFields m shape = Except.error e) ↔
      ∃ f ∈ shape, f.2 = Option.none ∧ dictLookup m f.1 = Option.none) ∧
    (∀ r, parseFields m shape = Except.ok r →
      r = shape.map (fun f => (f.1,
        match dictLookup m f.1 with
        | some v => v
        | Option.none => f.2.getD Json.null))) := by
  induction shape with
  | nil =>
    constructor
    · simp [parseFields]
    · intro r h
      simp [parseFields] at h
      simp [h]
  | cons f rest ih =>
    obtain ⟨n, dflt⟩ := f
    unfold parseFields
    cases hl : dictLookup m n with
    | some v =>
      constructor
      · constructor
        · rintro ⟨e, he⟩
          cases hr : parseFields m rest with
          | ok r => rw [hr] at he; simp [Except.map] at he
          | error e' =>
            obtain ⟨g, hg, h1, h2⟩ := ih.1.mp ⟨e', hr⟩
            exact ⟨g, by simp [hg], h1, h2⟩
        · rintro ⟨g, hg, h1, h2⟩
          rcases List.mem_cons.mp hg with rfl | hg'
          · simp at h2; rw [hl] at h2; cases h2
          · obtain ⟨e', he'⟩ := ih.1.mpr ⟨g, hg', h1, h2⟩
            exact ⟨e', by simp [he', Except.map]⟩
      · intro r h
        cases hr : parseFields m rest with
        | error e' => rw [hr] at h; simp [Except.map] at h
        | ok r' =>
          rw [hr] at h
          simp [Except.map] at h
          subst h
          simp [hl, ih.2 r' hr]
    | none =>
      cases dflt with
      | some d =>
        constructor
        · constructor
          · rintro ⟨e, he⟩
            cases hr : parseFields m rest with
            | ok r => rw [hr] at he; simp [Except.map] at he
            | error e' =>
              obtain ⟨g, hg, h1, h2⟩ := ih.1.mp ⟨e', hr⟩
              exact ⟨g, by simp [hg], h1, h2⟩
          · rintro ⟨g, hg, h1, h2⟩
            rcases List.mem_cons.mp hg with rfl | hg'
            · simp at h1
            · obtain ⟨e', he'⟩ := ih.1.mpr ⟨g, hg', h1, h2⟩
              exact ⟨e', by simp [he', Except.map]⟩
        · intro r h
          cases hr : parseFields m rest with
          | error e' => rw [hr] at h; simp [Except.map] at h
          | ok r' =>
            rw [hr] at h
            simp [Except.map] at h
            subst h
            simp [hl, ih.2 r' hr]
      | none =>
        constructor
        · constructor
          · intro _
            exact ⟨(n, Option.none), by simp, rfl, hl⟩
          · intro _
            exact ⟨PyExn.typeError, rfl⟩
        · intro r h
          cases h

/-- C4: for every declared field table and every wire JSON object, `parse`
converts the keys to snake_case, then builds the record from exactly the
declared fields: every matched key contributes its wire value, every
declared-but-absent field its declared default, unknown converted keys
appear nowhere in the result, and construction fails precisely when some
required field (no default) is missing from the converted object. -/
theorem c4_parse (shape : FieldShape) (entries : List (String × Json)) :
    ((∃ e, parse shape (Json.obj entries) = Except.error e) ↔
      ∃ f ∈ shape, f.2 = Option.none ∧
        dictLookup (from_camel entries) f.1 = Option.none) ∧
    (∀ r, parse shape (Json.obj entries) = Except.ok r →
      r = shape.map (fun f => (f.1,
          match dictLookup (from_camel entries) f.1 with
          | some v => v
          | Option.none => f.2.getD Json.null)) ∧
        r.map Prod.fst = shape.map Prod.fst) := by
  have h := parseFields_spec (from_camel entries) shape
  constructor
  · exact h.1
  · intro r hr
    have h2 := h.2 r hr
    constructor
    · exact h2
    · rw [h2, List.map_map]
      rfl

/-- Witness for C4: the wallet record example — unknown wire key `extra`
is discarded and the five declared fields are filled from the converted
keys; the result's field names are exactly the declared ones. -/
theorem c4_parse_witness :
    parse walletResponseFields (Json.obj [("walletId", Json.str "w1"), ("name", Json.str "n"),
        ("balance", Json.num 1000), ("onHold", Json.num 50), ("available", Json.num 950),
        ("extra", Json.str "ignored")]) =
      Except.ok [("wallet_id", Json.str "w1"), ("name", Json.str "n"),
        ("balance", Json.num 1000), ("on_hold", Json.num 50), ("available", Json.num 950)] ∧
    ([("wallet_id", Json.str "w1"), ("name", Json.str "n"), ("balance", Json.num 1000),
        ("on_hold", Json.num 50), ("available", Json.num 950)].map Prod.fst =
      walletResponseFields.map Prod.fst) :=
  ⟨rfl,
    ((c4_parse walletResponseFields [("walletId", Json.str "w1"), ("name", Json.str "n"),
        ("balance", Json.num 1000), ("onHold", Json.num 50), ("available", Json.num 950),
        ("extra", Json.str "ignored")]).2 _ rfl).2⟩

/-- isNullJson discriminates the JSON null (Python `None`). -/
def isNullJson : Json → Bool
  | Json.null => true
  | _ => false

theorem dictInsert_fresh (m : List (String × Json)) (k : String) (v : Json)
    (h : k ∉ m.map Prod.fst) : dictInsert m k v = m ++ [(k, v)] := by
  induction m with
  | nil => rfl
  | cons kv rest ih =>
    have hne : ¬ kv.1 = k := by
      intro hh
      exact h (by simp [hh])
    obtain ⟨k', v'⟩ := kv
    simp only [dictInsert, if_neg hne, List.cons_append]
    rw [ih (fun hh => h (by simp [hh]))]

theorem foldl_dictInsert_fresh (f : String → String) (d : List (String × Json))
    (acc : List (String × Json))
    (hdisj : ∀ kv ∈ d, f kv.1 ∉ acc.map Prod.fst)
    (hinj : (d.map (fun kv => f kv.1)).Nodup) :
    d.foldl (fun m kv => dictInsert m (f kv.1) kv.2) acc =
      acc ++ d.map (fun kv => (f kv.1, kv.2)) := by
  induction d generalizing acc with
  | nil => simp
  | cons kv d' ih =>
    rw [List.foldl_cons, dictInsert_fresh acc (f kv.1) kv.2 (hdisj kv (by simp))]
    rw [List.map_cons] at hinj
    have hinj' := List.nodup_cons.mp hinj
    rw [ih (acc ++ [(f kv.1, kv.2)])
      (fun kv' hkv' => by
        simp only [List.map_append, List.mem_append]
        rintro (hin | hin)
        · exact hdisj kv' (by simp [hkv']) hin
        · simp at hin
          exact hinj'.1 (hin ▸ List.mem_map_of_mem (fun kv => f kv.1) hkv'))
      hinj'.2]
    simp

theorem from_camel_nodup (d : List (String × Json))
    (hinj : (d.map (fun kv => toSnakeKey kv.1)).Nodup) :
    from_camel d = d.map (fun kv => (toSnakeKey kv.1, kv.2)) := by
  have h := foldl_dictInsert_fresh toSnakeKey d [] (by simp) hinj
  simpa [from_camel] using h

theorem to_camel_step (m : List (String × Json)) (kv : String × Json) :
    (match kv.2 with
      | Json.null => m
      | v => dictInsert m (toCamelKey kv.1) v) =
    if isNullJson kv.2 then m else dictInsert m (toCamelKey kv.1) kv.2 := by
  obtain ⟨k, v⟩ := kv
  cases v <;> rfl

theorem foldl_to_camel (d : List (String × Json)) (acc : List (String × Json))
    (hdisj : ∀ kv ∈ d, isNullJson kv.2 = false → toCamelKey kv.1 ∉ acc.map Prod.fst)
    (hinj : ((d.filter (fun kv => !isNullJson kv.2)).map (fun kv => toCamelKey kv.1)).Nodup) :
    d.foldl
        (fun m kv =>
          match kv.2 with
          | Json.null => m
          | v => dictInsert m (toCamelKey kv.1) v)
        acc =
      acc ++ (d.filter (fun kv => !isNullJson kv.2)).map (fun kv => (toCamelKey kv.1, kv.2)) := by
  induction d generalizing acc with
  | nil => simp
  | cons kv d' ih =>
    rw [List.foldl_cons, to_camel_step acc kv]
    cases hnull : isNullJson kv.2 with
    | true =>
      simp only [if_true]
      rw [List.filter_cons_of_neg (by simp [hnull])] at hinj ⊢
      exact ih acc (fun kv' h1 h2 => hdisj kv' (by simp [h1]) h2) hinj
    | false =>
      simp only [Bool.false_eq_true, if_false]
      rw [dictInsert_fresh acc (toCamelKey kv.1) kv.2 (hdisj kv (by simp) hnull)]
      rw [List.filter_cons_of_pos (by simp [hnull])] at hinj ⊢
      rw [List.map_cons] at hinj
      have hinj' := List.nodup_cons.mp hinj
      rw [ih (acc ++ [(toCamelKey kv.1, kv.2)])
        (fun kv' hkv' hn => by
          simp only [List.map_append, List.mem_append]
          rintro (hin | hin)
          · exact hdisj kv' (by simp [hkv']) hn hin
          · simp at hin
            refine hinj'.1 ?_
            rw [← hin]
            have hmem : kv' ∈ List.filter (fun kv => !isNullJson kv.2) d' :=
              List.mem_filter.mpr ⟨hkv', by simp [hn]⟩
            exact List.mem_map_of_mem (fun kv => toCamelKey kv.1) hmem)
        hinj'.2]
      simp

theorem to_camel_nodup (d : List (String × Json))
    (hinj : ((d.filter (fun kv => !isNullJson kv.2)).map (fun kv => toCamelKey kv.1)).Nodup) :
    to_camel d = (d.filter (fun kv => !isNullJson kv.2)).map (fun kv => (toCamelKey kv.1, kv.2)) := by
  have h := foldl_to_camel d [] (by simp) hinj
  simpa [to_camel] using h

/-- C6 counterexample: the two distinct wire keys `a_b` and `aB` both
convert to the snake_case key `a_b`, so `from_camel` keeps only the last
binding: a key (and the value 1) is dropped, contradicting "fromWire ...
never drops a key, preserving every value unchanged"; symmetrically, the
two distinct snake keys `a_b` and `aB` both camelize to `aB`, so
`to_camel` also drops a non-null key (value 1), contradicting "toWire
drops every key whose value is null and converts the remaining keys
... preserving every value unchanged". -/
theorem c6_counterexample :
    from_camel [("a_b", Json.num 1), ("aB", Json.num 2)] = [("a_b", Json.num 2)] ∧
    (from_camel [("a_b", Json.num 1), ("aB", Json.num 2)]).length = 1 ∧
    to_camel [("a_b", Json.num 1), ("aB", Json.num 2)] = [("aB", Json.num 2)] ∧
    (to_camel [("a_b", Json.num 1), ("aB", Json.num 2)]).length = 1 :=
  ⟨rfl, rfl, rfl, rfl⟩

/-- C6 (amended): `fromWire` converts every key to snake_case preserving
every value and drops no key, provided no two input keys convert to the
same snake_case name (on such a collision only the last occurrence's
value survives); `toWire` drops the null-valued keys and converts the
remaining keys to camelCase preserving their values, dropping nothing
further, provided no two non-null keys convert to the same camelCase
name (on such a collision, likewise, the last occurrence wins); each
proviso governs only its own direction; consequently creating an invoice
with amount 100 and memo None sends a body equal to `{"amount":100}`
with memo (and reference) omitted. -/
theorem c6_wire_mapping (d : List (String × Json)) :
    ((d.map (fun kv => toSnakeKey kv.1)).Nodup →
      from_camel d = d.map (fun kv => (toSnakeKey kv.1, kv.2))) ∧
    (((d.filter (fun kv => !isNullJson kv.2)).map (fun kv => toCamelKey kv.1)).Nodup →
      to_camel d =
        (d.filter (fun kv => !isNullJson kv.2)).map (fun kv => (toCamelKey kv.1, kv.2))) ∧
    to_camel [("amount", Json.num 100), ("reference", Json.null), ("memo", Json.null)] =
      [("amount", Json.num 100)] :=
  ⟨from_camel_nodup d, to_camel_nodup d, rfl⟩

/-- Witness for C6: the payment-create body with null amount, max_fee and
reference — only target and idempotency_key survive, camelized; a wallet
response read back from the wire is converted key-by-key; and the fromWire
direction applies even when the camelized keys collide (`a__b` and `a_b`
both camelize to `aB`), since its proviso concerns only the snake_case
images, which are distinct here. -/
theorem c6_wire_mapping_witness :
    to_camel [("target", Json.str "user@ln.bot"), ("amount", Json.null),
        ("idempotency_key", Json.str "idem_1"), ("max_fee", Json.null),
        ("reference", Json.null)] =
      [("target", Json.str "user@ln.bot"), ("idempotencyKey", Json.str "idem_1")] ∧
    from_camel [("walletId", Json.str "w1"), ("onHold", Json.num 50)] =
      [("wallet_id", Json.str "w1"), ("on_hold", Json.num 50)] ∧
    from_camel [("a__b", Json.num 1), ("a_b", Json.num 2)] =
      [("a__b", Json.num 1), ("a_b", Json.num 2)] := by
  have h1 := (c6_wire_mapping [("target", Json.str "user@ln.bot"), ("amount", Json.null),
    ("idempotency_key", Json.str "idem_1"), ("max_fee", Json.null),
    ("reference", Json.null)]).2.1 (by decide)
  have h2 := (c6_wire_mapping [("walletId", Json.str "w1"), ("onHold", Json.num 50)]).1
    (by decide)
  have h3 := (c6_wire_mapping [("a__b", Json.num 1), ("a_b", Json.num 2)]).1 (by decide)
  exact ⟨h1, h2, h3⟩

theorem raise_none_of_success (decode : String → Option Json) (resp : HttpResponse)
    (hs : isSuccess resp.status = true) : _raise_for_status decode resp = Option.none := by
  simp [_raise_for_status, hs]

/-- isNoContent discriminates the 204 "no value" dispatcher outcome. -/
def isNoContent : DispatchResult → Bool
  | DispatchResult.value RespValue.noContent => true
  | _ => false

/-- C7 counterexample: a successful 204 response with no content type and
an empty body makes `_patch` return the empty text, not "no value" —
`LnBot._patch` (unlike `LnBot._post`) has no `status_code == 204` branch,
contradicting the claim that both entry points yield no value on 204. -/
theorem c7_counterexample :
    _patch_handle (fun _ => Option.none) ⟨204, "", "No Content", ""⟩ =
      DispatchResult.value (RespValue.text "") ∧
    isNoContent (_patch_handle (fun _ => Option.none) ⟨204, "", "No Content", ""⟩) = false :=
  ⟨rfl, rfl⟩

/-- C7 (amended): on a successful response, `post` yields no value exactly
on status 204 and otherwise decodes the body like `patch`; `patch` has no
204 special case and always decodes the body — a JSON content-type yields
the parsed JSON value (or propagates the decode error), anything else
yields the raw text. -/
theorem c7_post_patch (decode : String → Option Json) (resp : HttpResponse)
    (hs : isSuccess resp.status = true) :
    (resp.status = 204 → _post_handle decode resp = DispatchResult.value RespValue.noContent) ∧
    (resp.status ≠ 204 → _post_handle decode resp = _patch_handle decode resp) ∧
    (hasSubstr "application/json" resp.contentType = true →
      _patch_handle decode resp =
        (match decode resp.body with
         | some j => DispatchResult.value (RespValue.json j)
         | Option.none => DispatchResult.exn PyExn.jsonDecodeError)) ∧
    (hasSubstr "application/json" resp.contentType = false →
      _patch_handle decode resp = DispatchResult.value (RespValue.text resp.body)) := by
  have hr := raise_none_of_success decode resp hs
  refine ⟨?_, ?_, ?_, ?_⟩
  · intro h204
    simp [_post_handle, hr, h204]
  · intro h204
    simp only [_post_handle, _patch_handle, hr, if_neg h204]
  · intro hct
    simp only [_patch_handle, hr, hct, if_true, jsonLoads]
    cases decode resp.body <;> rfl
  · intro hct
    simp [_patch_handle, hr, hct]

/-- Witness for C7: a 200 JSON response decodes identically through post
and patch, and a 204 response yields no value through post. -/
theorem c7_post_patch_witness :
    _post_handle (fun s => if s = "[]" then some (Json.arr []) else Option.none)
        ⟨200, "application/json", "OK", "[]"⟩ =
      DispatchResult.value (RespValue.json (Json.arr [])) ∧
    _patch_handle (fun s => if s = "[]" then some (Json.arr []) else Option.none)
        ⟨200, "application/json", "OK", "[]"⟩ =
      DispatchResult.value (RespValue.json (Json.arr [])) ∧
    _post_handle (fun _ => Option.none) ⟨204, "", "No Content", ""⟩ =
      DispatchResult.value RespValue.noContent := by
  have h := c7_post_patch (fun s => if s = "[]" then some (Json.arr []) else Option.none)
    ⟨200, "application/json", "OK", "[]"⟩ rfl
  have hp := h.2.2.1 (by decide)
  have hpp := h.2.1 (by decide)
  have h204 := (c7_post_patch (fun _ => Option.none) ⟨204, "", "No Content", ""⟩ rfl).1 rfl
  exact ⟨by rw [hpp, hp]; rfl, by rw [hp]; rfl, h204⟩

theorem watchStep_eq_async : watchStep = asyncWatchStep := rfl

theorem walletEventStep_eq_async : walletEventStep = asyncWalletEventStep := rfl

theorem watchRun_eq_async : watchRun = asyncWatchRun := by
  funext decode shape pending lines
  induction lines generalizing pending with
  | nil => rfl
  | cons line rest ih =>
    simp only [watchRun, asyncWatchRun, ih]
    rw [show asyncWatchStep = watchStep from rfl]

theorem walletEventsRun_eq_async : walletEventsRun = asyncWalletEventsRun := by
  funext decode lines
  induction lines with
  | nil => rfl
  | cons line rest ih =>
    simp only [walletEventsRun, asyncWalletEventsRun, ih]
    rw [show asyncWalletEventStep = walletEventStep from rfl]

/-- C8: the synchronous and asynchronous class trees differ only in the
I/O waiting primitive; their response handling, error classification and
stream processing are the same functions: each async embedding is
definitionally equal to its sync counterpart, so identical server
responses (status, headers, body, or line sequence) produce identical
decoded values, identical raised errors (kind, message, status, body), and
identical event sequences. -/
theorem c8_sync_async_equal :
    _get_handle = async_get_handle ∧
    _post_handle = async_post_handle ∧
    _patch_handle = async_patch_handle ∧
    _delete_handle = async_delete_handle ∧
    watchRun = asyncWatchRun ∧
    walletEventsRun = asyncWalletEventsRun :=
  ⟨rfl, rfl, rfl, rfl, watchRun_eq_async, walletEventsRun_eq_async⟩

/-- isObjJson discriminates JSON objects (Python dicts) among JSON values. -/
def isObjJson : Json → Bool
  | Json.obj _ => true
  | _ => false

theorem parse_non_obj (shape : FieldShape) (j : Json) (h : isObjJson j = false) :
    parse shape j = Except.error PyExn.attributeError := by
  cases j with
  | obj entries => exact absurd h (by simp [isObjJson])
  | null => rfl
  | bool b => rfl
  | num n => rfl
  | str s => rfl
  | arr elems => rfl

theorem startsWithChars_self (p cs : List Char) : startsWithChars p (p ++ cs) = true := by
  induction p with
  | nil => rfl
  | cons c p' ih => simp [startsWithChars, ih]

theorem pyStartsWith_append (p e : String) : pyStartsWith (p ++ e) p = true := by
  unfold pyStartsWith
  rw [String.data_append]
  exact startsWithChars_self p.data e.data

theorem pyDrop_append (p e : String) : pyDrop (p ++ e) p.data.length = e := by
  unfold pyDrop
  rw [String.data_append, List.drop_left]

theorem data_not_event (raw : String) : pyStartsWith ("data:" ++ raw) "event:" = false := by
  unfold pyStartsWith
  rw [String.data_append]
  rfl

/-- decodeNum1 models `json.loads` on the body `1`, a valid JSON document
whose value is the number 1 — not an object. -/
def decodeNum1 : String → Option Json :=
  fun s => if s = "1" then some (Json.num 1) else Option.none

/-- C1 counterexample: on the line sequence `event: settled`, `data: 1`
the payload decodes as JSON (the number 1), so the claimed machine would
drop it silently and continue; the code instead calls
`parse(InvoiceResponse, 1)`, whose `1.items()` raises `AttributeError`,
which the `except (json.JSONDecodeError, TypeError)` clause does not
catch — the run aborts with an uncaught exception (second component
`true`), contradicting "the stream continues, never raises". -/
theorem c1_counterexample :
    watchRun decodeNum1 invoiceResponseFields "" ["event: settled", "data: 1"] = ([], true) :=
  rfl

/-- C1 (amended): the watch readers obey the claimed line state machine —
`event:` lines store the trimmed remainder as pending name; a `data:` line
with nonempty trimmed remainder and a pending name attempts decode+parse,
emitting one event on success and emitting nothing on a JSON decode error
or a missing-required-field parse error, clearing the pending name in all
three cases; a `data:` line with empty remainder or no pending name yields
nothing and changes nothing; other lines change nothing; events appear in
input order and the empty stream yields no events — except that a `data:`
payload which decodes to a non-object JSON value raises an uncaught
`AttributeError`, aborting the stream (no event, nothing further
processed). -/
theorem c1_watch_state_machine (decode : String → Option Json) (shape : FieldShape)
    (pending : String) (line : String) (rest : List String) :
    watchRun decode shape pending [] = ([], false) ∧
    (pyStartsWith line "event:" = true →
      watchRun decode shape pending (line :: rest) =
        watchRun decode shape (pyStrip (pyDrop line 6)) rest) ∧
    (pyStartsWith line "event:" = false → pyStartsWith line "data:" = true →
      pyStrip (pyDrop line 5) ≠ "" → pending ≠ "" →
      ((decode (pyStrip (pyDrop line 5)) = Option.none →
         watchRun decode shape pending (line :: rest) = watchRun decode shape "" rest) ∧
       (∀ entries r, decode (pyStrip (pyDrop line 5)) = some (Json.obj entries) →
         parseFields (from_camel entries) shape = Except.ok r →
         watchRun decode shape pending (line :: rest) =
           (⟨pending, r⟩ :: (watchRun decode shape "" rest).1,
             (watchRun decode shape "" rest).2)) ∧
       (∀ entries, decode (pyStrip (pyDrop line 5)) = some (Json.obj entries) →
         parseFields (from_camel entries) shape = Except.error PyExn.typeError →
         watchRun decode shape pending (line :: rest) = watchRun decode shape "" rest) ∧
       (∀ j, decode (pyStrip (pyDrop line 5)) = some j → isObjJson j = false →
         watchRun decode shape pending (line :: rest) = ([], true)))) ∧
    (pyStartsWith line "event:" = false → pyStartsWith line "data:" = true →
      (pyStrip (pyDrop line 5) = "" ∨ pending = "") →
      watchRun decode shape pending (line :: rest) = watchRun decode shape pending rest) ∧
    (pyStartsWith line "event:" = false → pyStartsWith line "data:" = false →
      watchRun decode shape pending (line :: rest) = watchRun decode shape pending rest) := by
  refine ⟨rfl, ?_, ?_, ?_, ?_⟩
  · intro hE
    simp [watchRun, watchStep, hE]
  · intro hE hD hraw hp
    refine ⟨?_, ?_, ?_, ?_⟩
    · intro hdec
      simp [watchRun, watchStep, hE, hD, hraw, hp, jsonLoads, hdec, Except.bind]
    · intro entries r hdec hok
      simp [watchRun, watchStep, hE, hD, hraw, hp, jsonLoads, hdec, Except.bind, parse, hok]
    · intro entries hdec herr
      simp [watchRun, watchStep, hE, hD, hraw, hp, jsonLoads, hdec, Except.bind, parse, herr]
    · intro j hdec hobj
      simp [watchRun, watchStep, hE, hD, hraw, hp, jsonLoads, hdec, Except.bind,
        parse_non_obj shape j hobj]
  · intro hE hD hor
    rcases hor with h | h
    · simp [watchRun, watchStep, hE, hD, h]
    · simp [watchRun, watchStep, hE, hD, h]
  · intro hE hD
    simp [watchRun, watchStep, hE, hD]

/-- decodeInvoiceBody models `json.loads` on the settled-invoice SSE
payload used by the spec's own example. -/
def decodeInvoiceBody : String → Option Json :=
  fun s =>
    if s = "\x7b\"number\":1,\"status\":\"settled\",\"amount\":100,\"bolt11\":\"lnbc1\"\x7d" then
      some (Json.obj [("number", Json.num 1), ("status", Json.str "settled"),
        ("amount", Json.num 100), ("bolt11", Json.str "lnbc1")])
    else Option.none

/-- Witness for C1: the spec's example stream — an `event: settled` line
followed by a `data:` line carrying a settled invoice — yields exactly one
event pairing "settled" with the parsed record (optional fields filled
with null defaults). -/
theorem c1_watch_state_machine_witness :
    watchRun decodeInvoiceBody invoiceResponseFields ""
        ["event: settled",
         "data: \x7b\"number\":1,\"status\":\"settled\",\"amount\":100,\"bolt11\":\"lnbc1\"\x7d"] =
      ([⟨"settled", [("number", Json.num 1), ("status", Json.str "settled"),
          ("amount", Json.num 100), ("bolt11", Json.str "lnbc1"), ("reference", Json.null),
          ("memo", Json.null), ("preimage", Json.null), ("tx_number", Json.null),
          ("created_at", Json.null), ("settled_at", Json.null), ("expires_at", Json.null)]⟩],
        false) := by
  rw [(c1_watch_state_machine decodeInvoiceBody invoiceResponseFields "" "event: settled"
    ["data: \x7b\"number\":1,\"status\":\"settled\",\"amount\":100,\"bolt11\":\"lnbc1\"\x7d"]).2.1
    (by decide)]
  show watchRun decodeInvoiceBody invoiceResponseFields "settled"
    ["data: \x7b\"number\":1,\"status\":\"settled\",\"amount\":100,\"bolt11\":\"lnbc1\"\x7d"] = _
  rw [((c1_watch_state_machine decodeInvoiceBody invoiceResponseFields "settled"
      "data: \x7b\"number\":1,\"status\":\"settled\",\"amount\":100,\"bolt11\":\"lnbc1\"\x7d"
      []).2.2.1 (by decide) (by decide) (by decide) (by decide)).2.1
    [("number", Json.num 1), ("status", Json.str "settled"),
      ("amount", Json.num 100), ("bolt11", Json.str "lnbc1")]
    [("number", Json.num 1), ("status", Json.str "settled"), ("amount", Json.num 100),
      ("bolt11", Json.str "lnbc1"), ("reference", Json.null), ("memo", Json.null),
      ("preimage", Json.null), ("tx_number", Json.null), ("created_at", Json.null),
      ("settled_at", Json.null), ("expires_at", Json.null)]
    rfl rfl]
  rfl

/-- C9 counterexample: the line `data: 1` decodes as JSON (the number 1),
so the claim requires one WalletEvent and no exception; the code calls
`data.get("event", "")` on the int 1, raising an uncaught
`AttributeError` (only `json.JSONDecodeError` and `TypeError` are caught)
and aborting the stream with zero events. -/
theorem c9_counterexample :
    walletEventsRun decodeNum1 ["data: 1"] = ([], true) :=
  rfl

/-- C9 (amended): in the wallet-wide stream, every `data:` line whose
nonempty trimmed remainder decodes to a JSON object yields exactly one
WalletEvent taking `event`, `created_at` and `data` from the object's
`event` / `createdAt` / `data` keys with defaults `""`, `""`, `{}` — such
a line never raises and is never dropped; a remainder that fails to decode
is dropped silently; but a remainder that decodes to a non-object JSON
value raises an uncaught error and aborts the stream.  Non-`data:` lines
and empty remainders are ignored. -/
theorem c9_events_stream (decode : String → Option Json) (line : String) (rest : List String) :
    walletEventsRun decode [] = ([], false) ∧
    (pyStartsWith line "data:" = false →
      walletEventsRun decode (line :: rest) = walletEventsRun decode rest) ∧
    (pyStartsWith line "data:" = true → pyStrip (pyDrop line 5) = "" →
      walletEventsRun decode (line :: rest) = walletEventsRun decode rest) ∧
    (pyStartsWith line "data:" = true → pyStrip (pyDrop line 5) ≠ "" →
      ((decode (pyStrip (pyDrop line 5)) = Option.none →
         walletEventsRun decode (line :: rest) = walletEventsRun decode rest) ∧
       (∀ entries, decode (pyStrip (pyDrop line 5)) = some (Json.obj entries) →
         walletEventsRun decode (line :: rest) =
           (⟨(dictLookup entries "event").getD (Json.str ""),
             (dictLookup entries "createdAt").getD (Json.str ""),
             (dictLookup entries "data").getD (Json.obj [])⟩ ::
               (walletEventsRun decode rest).1,
             (walletEventsRun decode rest).2)) ∧
       (∀ j, decode (pyStrip (pyDrop line 5)) = some j → isObjJson j = false →
         walletEventsRun decode (line :: rest) = ([], true)))) := by
  refine ⟨rfl, ?_, ?_, ?_⟩
  · intro hD
    simp [walletEventsRun, walletEventStep, hD]
  · intro hD hraw
    simp [walletEventsRun, walletEventStep, hD, hraw]
  · intro hD hraw
    refine ⟨?_, ?_, ?_⟩
    · intro hdec
      simp [walletEventsRun, walletEventStep, hD, hraw, hdec]
    · intro entries hdec
      simp [walletEventsRun, walletEventStep, hD, hraw, hdec]
    · intro j hdec hobj
      cases j with
      | obj entries => exact absurd hobj (by simp [isObjJson])
      | null => simp [walletEventsRun, walletEventStep, hD, hraw, hdec]
      | bool b => simp [walletEventsRun, walletEventStep, hD, hraw, hdec]
      | num n => simp [walletEventsRun, walletEventStep, hD, hraw, hdec]
      | str s => simp [walletEventsRun, walletEventStep, hD, hraw, hdec]
      | arr elems => simp [walletEventsRun, walletEventStep, hD, hraw, hdec]

/-- decodeEmptyObj models `json.loads` on the body `{}`. -/
def decodeEmptyObj : String → Option Json :=
  fun s => if s = "\x7b\x7d" then some (Json.obj []) else Option.none

/-- Witness for C9: a `data: {}` line, lacking all three keys, still
yields exactly one event with the empty-string and empty-object defaults. -/
theorem c9_events_stream_witness :
    walletEventsRun decodeEmptyObj ["data: \x7b\x7d"] =
      ([⟨Json.str "", Json.str "", Json.obj []⟩], false) := by
  rw [((c9_events_stream decodeEmptyObj "data: \x7b\x7d" []).2.2.2 (by decide)
    (by decide)).2.1 [] rfl]
  rfl

/-- C10: `parse` performs no validation or coercion — for an arbitrary
JSON value `s` (wrong type, or a status string outside
{pending, settled, expired}) in the `status` position, construction of an
InvoiceResponse succeeds and stores `s` unchanged; and the watch reader
emits whatever discriminator string the `event:` line carried, with no
check against the declared event names: for every name `e` (its own trim,
nonempty) the stream `event:`+e, `data:`+payload yields the event ⟨e, r⟩
whenever the payload parses to `r`. -/
theorem c10_no_validation (s : Json) (decode : String → Option Json)
    (e raw : String) (entries r : List (String × Json))
    (he : pyStrip e = e) (hene : e ≠ "")
    (hrawstrip : pyStrip raw = raw) (hrawne : raw ≠ "")
    (hdec : decode raw = some (Json.obj entries))
    (hok : parseFields (from_camel entries) invoiceResponseFields = Except.ok r) :
    parse invoiceResponseFields (Json.obj [("number", Json.num 1), ("status", s),
        ("amount", Json.num 5), ("bolt11", Json.str "x")]) =
      Except.ok [("number", Json.num 1), ("status", s), ("amount", Json.num 5),
        ("bolt11", Json.str "x"), ("reference", Json.null), ("memo", Json.null),
        ("preimage", Json.null), ("tx_number", Json.null), ("created_at", Json.null),
        ("settled_at", Json.null), ("expires_at", Json.null)] ∧
    watchRun decode invoiceResponseFields "" ["event:" ++ e, "data:" ++ raw] =
      ([⟨e, r⟩], false) := by
  constructor
  · rfl
  · have hE1 : pyStartsWith ("event:" ++ e) "event:" = true := pyStartsWith_append "event:" e
    have hdrop1 : pyDrop ("event:" ++ e) 6 = e := pyDrop_append "event:" e
    have hE2 : pyStartsWith ("data:" ++ raw) "event:" = false := data_not_event raw
    have hD2 : pyStartsWith ("data:" ++ raw) "data:" = true := pyStartsWith_append "data:" raw
    have hdrop2 : pyDrop ("data:" ++ raw) 5 = raw := pyDrop_append "data:" raw
    simp only [watchRun, watchStep, hE1, if_true, hdrop1, he, hE2, Bool.false_eq_true,
      if_false, hD2, hdrop2, hrawstrip]
    simp [jsonLoads, hdec, Except.bind, parse, hok, watchRun, hrawne, hene]

/-- Witness for C10: status `weird` (outside the declared literal set) is
stored unchanged, and the discriminator `bogus` (outside the declared
event names) is emitted verbatim. -/
theorem c10_no_validation_witness :
    watchRun decodeInvoiceBody invoiceResponseFields ""
        ["event:" ++ "bogus",
         "data:" ++ "\x7b\"number\":1,\"status\":\"settled\",\"amount\":100,\"bolt11\":\"lnbc1\"\x7d"] =
      ([⟨"bogus", [("number", Json.num 1), ("status", Json.str "settled"),
          ("amount", Json.num 100), ("bolt11", Json.str "lnbc1"), ("reference", Json.null),
          ("memo", Json.null), ("preimage", Json.null), ("tx_number", Json.null),
          ("created_at", Json.null), ("settled_at", Json.null), ("expires_at", Json.null)]⟩],
        false) ∧
    parse invoiceResponseFields (Json.obj [("number", Json.num 1), ("status", Json.str "weird"),
        ("amount", Json.num 5), ("bolt11", Json.str "x")]) =
      Except.ok [("number", Json.num 1), ("status", Json.str "weird"), ("amount", Json.num 5),
        ("bolt11", Json.str "x"), ("reference", Json.null), ("memo", Json.null),
        ("preimage", Json.null), ("tx_number", Json.null), ("created_at", Json.null),
        ("settled_at", Json.null), ("expires_at", Json.null)] := by
  have h := c10_no_validation (Json.str "weird") decodeInvoiceBody "bogus"
    "\x7b\"number\":1,\"status\":\"settled\",\"amount\":100,\"bolt11\":\"lnbc1\"\x7d"
    [("number", Json.num 1), ("status", Json.str "settled"),
      ("amount", Json.num 100), ("bolt11", Json.str "lnbc1")]
    [("number", Json.num 1), ("status", Json.str "settled"), ("amount", Json.num 100),
      ("bolt11", Json.str "lnbc1"), ("reference", Json.null), ("memo", Json.null),
      ("preimage", Json.null), ("tx_number", Json.null), ("created_at", Json.null),
      ("settled_at", Json.null), ("expires_at", Json.null)]
    (by decide) (by decide) (by decide) (by decide) rfl rfl
  exact ⟨h.2, h.1⟩

end LnBot









